import Mathlib

/-!
Shallow embedding of the NDVI growth-period detection pipeline of
`notebooks/deepmc/mc_forecast.ipynb`: the notebook loads a timeseries CSV
into a pandas dataframe, smooths the `mean` column with a rolling mean,
takes the first difference, and labels harvest and germination periods
with two threshold conditions.  Pandas NaN entries are modelled as
`Option.none`; NaN never satisfies a comparison, so a NaN row never
receives a label.
-/

namespace FarmVibes

/-- A row of the NDVI timeseries dataframe loaded from the workflow CSV:
a date column, and the `mean` NDVI value column read by the pipeline. -/
structure Row where
  date : Int
  mean : ℚ
deriving DecidableEq

/-- A dataframe row after the smoothing, differencing and labeling cells:
the original columns plus `rolled_mean`, `delta_mean`, `harvest_period`
and `germination_period` (`none` models pandas NaN). -/
structure LabeledRow where
  date : Int
  mean : ℚ
  rolled_mean : Option ℚ
  delta_mean : Option ℚ
  harvest_period : Option ℚ
  germination_period : Option ℚ
deriving DecidableEq

/-- Embedding of pandas `Series.rolling(window=w).mean()` as used by the
cell `df['rolled_mean'] = df['mean'].rolling(window=3).mean()`: entry `i`
is the arithmetic mean of the `w` consecutive values ending at `i`, and
NaN (`none`) while fewer than `w` observations are available. -/
def rollingMean (w : ℕ) (xs : List ℚ) : List (Option ℚ) :=
  (List.range xs.length).map (fun i =>
    if w ≤ i + 1 then some ((((xs.drop (i + 1 - w)).take w).sum) / (w : ℚ)) else none)

/-- Embedding of pandas `Series.diff()` as used by the cell
`df['delta_mean'] = df['rolled_mean'].diff()`: entry `i` is `s[i] - s[i-1]`,
NaN at index 0 and wherever either operand is NaN. -/
def diffSeries (xs : List (Option ℚ)) : List (Option ℚ) :=
  (List.range xs.length).map (fun i =>
    if i = 0 then none
    else
      match xs.getD i none, xs.getD (i - 1) none with
      | some a, some b => some (a - b)
      | _, _ => none)

/-- The harvest labeling cell
`df.loc[(df['rolled_mean'] < ndvi_threshold) & (df['delta_mean'].abs() <= delta_threshold) & (df['delta_mean'] < 0), 'harvest_period'] = ndvi_threshold`:
where the condition holds the threshold constant is written, elsewhere the
new column is NaN; a NaN operand makes every comparison false. -/
def harvestLabel (thr dthr : ℚ) (rv dv : Option ℚ) : Option ℚ :=
  match rv, dv with
  | some r, some d => if r < thr ∧ |d| ≤ dthr ∧ d < 0 then some thr else none
  | _, _ => none

/-- The germination labeling cell
`df.loc[(df['rolled_mean'] < ndvi_threshold) & (df['delta_mean'].abs() < delta_threshold) & (df['delta_mean'] > 0), 'germination_period'] = ndvi_threshold`:
strict comparison on the delta magnitude, threshold constant written where
the condition holds. -/
def germinationLabel (thr dthr : ℚ) (rv dv : Option ℚ) : Option ℚ :=
  match rv, dv with
  | some r, some d => if r < thr ∧ |d| < dthr ∧ 0 < d then some thr else none
  | _, _ => none

/-- One output row of the pipeline: the input row at index `i` of the
dataframe, with the smoothed column, the difference column and the two
label columns of that index attached.  `xs` is the `mean` column. -/
def labelRowAt (w : ℕ) (thr dthr : ℚ) (xs : List ℚ) (i : ℕ) (row : Row) : LabeledRow :=
  { date := row.date
    mean := row.mean
    rolled_mean := (rollingMean w xs).getD i none
    delta_mean := (diffSeries (rollingMean w xs)).getD i none
    harvest_period := harvestLabel thr dthr ((rollingMean w xs).getD i none)
      ((diffSeries (rollingMean w xs)).getD i none)
    germination_period := germinationLabel thr dthr ((rollingMean w xs).getD i none)
      ((diffSeries (rollingMean w xs)).getD i none) }

/-- The three dataframe cells in sequence, parameterised by the rolling
window `w` and the two thresholds: smooth the `mean` column, difference the
smoothed column, and add the two label columns.  The original `date` and
`mean` columns are carried through unchanged. -/
def detectRows (w : ℕ) (thr dthr : ℚ) (rows : List Row) : List LabeledRow :=
  rows.enum.map (fun p => labelRowAt w thr dthr (rows.map Row.mean) p.1 p.2)

/-- The notebook parameter cell: `ndvi_threshold = 0.15`. -/
def ndvi_threshold : ℚ := 0.15

/-- The notebook parameter cell: `delta_threshold = 0.1`. -/
def delta_threshold : ℚ := 0.1

/-- The notebook parameter cell: `rolling_window = 14`.  The smoothing cell
never reads this variable: it passes the literal `window=3` instead. -/
def rolling_window : ℕ := 14

/-- The pipeline exactly as the notebook runs it: window hard-coded to 3 in
the smoothing cell, thresholds taken from the parameter cell. -/
def notebookDetect (rows : List Row) : List LabeledRow :=
  detectRows 3 ndvi_threshold delta_threshold rows

/-- The worked example series with one row per day. -/
def exampleRows : List Row :=
  [⟨0, 0.5⟩, ⟨1, 0.4⟩, ⟨2, 0.3⟩, ⟨3, 0.2⟩, ⟨4, 0.14⟩,
   ⟨5, 0.13⟩, ⟨6, 0.12⟩, ⟨7, 0.14⟩, ⟨8, 0.16⟩]

/-- The single error category of the specified failure contract. -/
inductive DetectError where
  | invalidInput
deriving DecidableEq

/-- Strictly ascending date column. -/
def sortedDates : List Row → Bool
  | [] => true
  | [_] => true
  | a :: b :: rest => decide (a.date < b.date) && sortedDates (b :: rest)

/-- The failure contract stated by the specification, written from its
words for comparison with the source pipeline: an empty or unordered
series is rejected with InvalidInputError before any computation, and a
well-formed series is processed.  Non-numeric values have no counterpart
here because values are embedded as rationals. -/
def specDetect (w : ℕ) (thr dthr : ℚ) (rows : List Row) :
    Except DetectError (List LabeledRow) :=
  if rows.isEmpty then Except.error DetectError.invalidInput
  else if sortedDates rows then Except.ok (detectRows w thr dthr rows)
  else Except.error DetectError.invalidInput

/-- A series whose date column is not monotonic. -/
def badRows : List Row :=
  [⟨3, 1/5⟩, ⟨1, 1/10⟩, ⟨2, 1/10⟩, ⟨0, 1/10⟩, ⟨5, 1/10⟩]

/-- A two-point series, shorter than the window 3. -/
def shortRows : List Row := [⟨0, 1/2⟩, ⟨1, 2/5⟩]

/-- A constant series. -/
def constRows : List Row := [⟨0, 1/4⟩, ⟨1, 1/4⟩, ⟨2, 1/4⟩, ⟨3, 1/4⟩]

/-- Two series with the same value column as `badRows` but a monotonic
date column. -/
def goodDateRows : List Row :=
  [⟨0, 1/5⟩, ⟨1, 1/10⟩, ⟨2, 1/10⟩, ⟨3, 1/10⟩, ⟨4, 1/10⟩]

/-- A two-point series whose first difference is exactly minus the delta
threshold of the notebook. -/
def exactDeltaRows : List Row := [⟨0, 1/5⟩, ⟨1, 1/10⟩]

section Lemmas

@[simp] theorem labelRowAt_date (w : ℕ) (thr dthr : ℚ) (xs : List ℚ) (i : ℕ) (row : Row) :
    (labelRowAt w thr dthr xs i row).date = row.date := rfl

@[simp] theorem labelRowAt_mean (w : ℕ) (thr dthr : ℚ) (xs : List ℚ) (i : ℕ) (row : Row) :
    (labelRowAt w thr dthr xs i row).mean = row.mean := rfl

@[simp] theorem labelRowAt_rolled_mean (w : ℕ) (thr dthr : ℚ) (xs : List ℚ) (i : ℕ) (row : Row) :
    (labelRowAt w thr dthr xs i row).rolled_mean = (rollingMean w xs).getD i none := rfl

@[simp] theorem labelRowAt_delta_mean (w : ℕ) (thr dthr : ℚ) (xs : List ℚ) (i : ℕ) (row : Row) :
    (labelRowAt w thr dthr xs i row).delta_mean =
      (diffSeries (rollingMean w xs)).getD i none := rfl

@[simp] theorem labelRowAt_harvest_period (w : ℕ) (thr dthr : ℚ) (xs : List ℚ) (i : ℕ)
    (row : Row) :
    (labelRowAt w thr dthr xs i row).harvest_period =
      harvestLabel thr dthr ((rollingMean w xs).getD i none)
        ((diffSeries (rollingMean w xs)).getD i none) := rfl

@[simp] theorem labelRowAt_germination_period (w : ℕ) (thr dthr : ℚ) (xs : List ℚ) (i : ℕ)
    (row : Row) :
    (labelRowAt w thr dthr xs i row).germination_period =
      germinationLabel thr dthr ((rollingMean w xs).getD i none)
        ((diffSeries (rollingMean w xs)).getD i none) := rfl

/-- Entry `i` of a map over `List.range`. -/
theorem getD_map_range {α : Type} (f : ℕ → α) (d : α) {n i : ℕ} (h : i < n) :
    ((List.range n).map f).getD i d = f i := by
  rw [List.getD_eq_getElem _ _ (by simpa using h)]
  simp

theorem rollingMean_length (w : ℕ) (xs : List ℚ) :
    (rollingMean w xs).length = xs.length := by
  simp [rollingMean]

theorem rollingMean_getD (w : ℕ) (xs : List ℚ) {i : ℕ} (h : i < xs.length) :
    (rollingMean w xs).getD i none =
      if w ≤ i + 1 then some ((((xs.drop (i + 1 - w)).take w).sum) / (w : ℚ))
      else none := by
  unfold rollingMean
  exact getD_map_range _ _ h

theorem rollingMean_getD_of_ge (w : ℕ) (xs : List ℚ) {i : ℕ} (h : xs.length ≤ i) :
    (rollingMean w xs).getD i none = none :=
  List.getD_eq_default _ _ (by simpa [rollingMean_length] using h)

theorem diffSeries_length (xs : List (Option ℚ)) :
    (diffSeries xs).length = xs.length := by
  simp [diffSeries]

theorem diffSeries_getD (xs : List (Option ℚ)) {i : ℕ} (h : i < xs.length) :
    (diffSeries xs).getD i none =
      if i = 0 then none
      else
        match xs.getD i none, xs.getD (i - 1) none with
        | some a, some b => some (a - b)
        | _, _ => none := by
  unfold diffSeries
  exact getD_map_range _ _ h

theorem diffSeries_getD_of_ge (xs : List (Option ℚ)) {i : ℕ} (h : xs.length ≤ i) :
    (diffSeries xs).getD i none = none :=
  List.getD_eq_default _ _ (by simpa [diffSeries_length] using h)

theorem harvestLabel_isSome {thr dthr : ℚ} {rv dv : Option ℚ}
    (h : (harvestLabel thr dthr rv dv).isSome) : rv.isSome ∧ dv.isSome := by
  rcases rv with _ | r <;> rcases dv with _ | d <;> simp [harvestLabel] at h ⊢

theorem germinationLabel_isSome {thr dthr : ℚ} {rv dv : Option ℚ}
    (h : (germinationLabel thr dthr rv dv).isSome) : rv.isSome ∧ dv.isSome := by
  rcases rv with _ | r <;> rcases dv with _ | d <;> simp [germinationLabel] at h ⊢

theorem harvestLabel_eq_some {thr dthr : ℚ} {rv dv : Option ℚ} {v : ℚ}
    (h : harvestLabel thr dthr rv dv = some v) : v = thr := by
  rcases rv with _ | r <;> rcases dv with _ | d
  · exact Option.noConfusion h
  · exact Option.noConfusion h
  · exact Option.noConfusion h
  · simp only [harvestLabel] at h
    by_cases hc : r < thr ∧ |d| ≤ dthr ∧ d < 0
    · rw [if_pos hc] at h
      exact (Option.some.inj h).symm
    · rw [if_neg hc] at h
      exact Option.noConfusion h

theorem germinationLabel_eq_some {thr dthr : ℚ} {rv dv : Option ℚ} {v : ℚ}
    (h : germinationLabel thr dthr rv dv = some v) : v = thr := by
  rcases rv with _ | r <;> rcases dv with _ | d
  · exact Option.noConfusion h
  · exact Option.noConfusion h
  · exact Option.noConfusion h
  · simp only [germinationLabel] at h
    by_cases hc : r < thr ∧ |d| < dthr ∧ 0 < d
    · rw [if_pos hc] at h
      exact (Option.some.inj h).symm
    · rw [if_neg hc] at h
      exact Option.noConfusion h

theorem mem_detectRows {w : ℕ} {thr dthr : ℚ} {rows : List Row} {lr : LabeledRow}
    (h : lr ∈ detectRows w thr dthr rows) :
    ∃ i, i < rows.length ∧ lr = labelRowAt w thr dthr (rows.map Row.mean) i
      (rows.getD i ⟨0, 0⟩) := by
  rcases List.mem_map.1 h with ⟨p, hp, rfl⟩
  have hget := List.mem_enum_iff_getElem?.1 hp
  rcases List.getElem?_eq_some_iff.1 hget with ⟨hlt, hv⟩
  exact ⟨p.1, hlt, by rw [List.getD_eq_getElem _ _ hlt, hv]⟩

theorem rollingMean_isSome (w : ℕ) (xs : List ℚ) {i : ℕ} (h : i < xs.length) :
    ((rollingMean w xs).getD i none).isSome ↔ w - 1 ≤ i := by
  rw [rollingMean_getD w xs h]
  by_cases hc : w ≤ i + 1
  · rw [if_pos hc]
    simp only [Option.isSome_some, true_iff]
    omega
  · rw [if_neg hc]
    simp only [Option.isSome_none, Bool.false_eq_true, false_iff]
    omega

theorem diffSeries_rollingMean_isSome (w : ℕ) (xs : List ℚ) (h1 : 1 ≤ w) {i : ℕ}
    (h : i < xs.length) :
    ((diffSeries (rollingMean w xs)).getD i none).isSome ↔ w ≤ i := by
  have hl : i < (rollingMean w xs).length := by rw [rollingMean_length]; exact h
  rw [diffSeries_getD _ hl]
  by_cases h0 : i = 0
  · subst h0
    rw [if_pos rfl]
    simp only [Option.isSome_none, Bool.false_eq_true, false_iff]
    omega
  · rw [if_neg h0]
    have hpred : i - 1 < xs.length := lt_of_le_of_lt (Nat.sub_le i 1) h
    rw [rollingMean_getD w xs h, rollingMean_getD w xs hpred]
    by_cases h2 : w ≤ i
    · rw [if_pos (by omega : w ≤ i + 1), if_pos (by omega : w ≤ i - 1 + 1)]
      simp [h2]
    · by_cases h3 : w ≤ i + 1
      · rw [if_pos h3, if_neg (by omega : ¬ w ≤ i - 1 + 1)]
        simp [h2]
      · rw [if_neg h3, if_neg (by omega : ¬ w ≤ i - 1 + 1)]
        simp [h2]

theorem diffSeries_getD_eq_sub (xs : List (Option ℚ)) {i : ℕ} {v : ℚ}
    (h : (diffSeries xs).getD i none = some v) :
    ∃ a b, xs.getD i none = some a ∧ xs.getD (i - 1) none = some b ∧ v = a - b := by
  by_cases hl : i < xs.length
  · rw [diffSeries_getD _ hl] at h
    by_cases h0 : i = 0
    · rw [if_pos h0] at h
      exact Option.noConfusion h
    · rw [if_neg h0] at h
      rcases e1 : xs.getD i none with _ | a <;> rcases e2 : xs.getD (i - 1) none with _ | b <;>
        rw [e1, e2] at h
      · exact Option.noConfusion h
      · exact Option.noConfusion h
      · exact Option.noConfusion h
      · exact ⟨a, b, rfl, rfl, (Option.some.inj h).symm⟩
  · rw [diffSeries_getD_of_ge _ (Nat.le_of_not_lt hl)] at h
    exact Option.noConfusion h

theorem rollingMean_const (w : ℕ) (xs : List ℚ) (c : ℚ) (h1 : 1 ≤ w)
    (hc : ∀ x ∈ xs, x = c) (i : ℕ) :
    (rollingMean w xs).getD i none = none ∨ (rollingMean w xs).getD i none = some c := by
  by_cases hl : i < xs.length
  · rw [rollingMean_getD w xs hl]
    by_cases hw : w ≤ i + 1
    · right
      rw [if_pos hw]
      have hlen : ((xs.drop (i + 1 - w)).take w).length = w := by
        rw [List.length_take, List.length_drop]
        omega
      have hsum : ((xs.drop (i + 1 - w)).take w).sum =
          ((xs.drop (i + 1 - w)).take w).length • c :=
        List.sum_eq_card_nsmul _ c
          (fun x hx => hc x (List.mem_of_mem_drop (List.mem_of_mem_take hx)))
      rw [hsum, hlen, nsmul_eq_mul, mul_div_cancel_left₀ c (by exact_mod_cast by omega : (w : ℚ) ≠ 0)]
    · left
      rw [if_neg hw]
  · left
    exact rollingMean_getD_of_ge w xs (Nat.le_of_not_lt hl)

theorem diffSeries_const (w : ℕ) (xs : List ℚ) (c : ℚ) (h1 : 1 ≤ w)
    (hc : ∀ x ∈ xs, x = c) (i : ℕ) :
    (diffSeries (rollingMean w xs)).getD i none = none ∨
      (diffSeries (rollingMean w xs)).getD i none = some 0 := by
  by_cases hl : i < (rollingMean w xs).length
  · rw [diffSeries_getD _ hl]
    by_cases h0 : i = 0
    · left
      rw [if_pos h0]
    · rw [if_neg h0]
      rcases rollingMean_const w xs c h1 hc i with e1 | e1 <;>
        rcases rollingMean_const w xs c h1 hc (i - 1) with e2 | e2 <;> rw [e1, e2]
      · left; rfl
      · left; rfl
      · left; rfl
      · right; simp
  · left
    exact diffSeries_getD_of_ge _ (Nat.le_of_not_lt hl)

theorem harvestLabel_none_left (thr dthr : ℚ) (dv : Option ℚ) :
    harvestLabel thr dthr none dv = none := by
  rcases dv <;> rfl

theorem germinationLabel_none_left (thr dthr : ℚ) (dv : Option ℚ) :
    germinationLabel thr dthr none dv = none := by
  rcases dv <;> rfl

theorem harvestLabel_none_of_delta {thr dthr : ℚ} {rv dv : Option ℚ}
    (hd : dv = none ∨ dv = some 0) : harvestLabel thr dthr rv dv = none := by
  rcases hd with rfl | rfl <;> rcases rv with _ | r <;> simp [harvestLabel]

theorem germinationLabel_none_of_delta {thr dthr : ℚ} {rv dv : Option ℚ}
    (hd : dv = none ∨ dv = some 0) : germinationLabel thr dthr rv dv = none := by
  rcases hd with rfl | rfl <;> rcases rv with _ | r <;> simp [germinationLabel]

end Lemmas

section Claims

/-- C1: at every position of the series where both the smoothed value and
the delta are defined, the harvest label is assigned if and only if the
smoothed value is strictly below the index threshold, the delta magnitude
is at most the delta threshold, and the delta is strictly negative. -/
theorem harvest_label_iff (w : ℕ) (thr dthr : ℚ) (rows : List Row) (lr : LabeledRow)
    (hmem : lr ∈ detectRows w thr dthr rows) (r d : ℚ)
    (hr : lr.rolled_mean = some r) (hd : lr.delta_mean = some d) :
    lr.harvest_period.isSome ↔ (r < thr ∧ |d| ≤ dthr ∧ d < 0) := by
  rcases List.mem_map.1 hmem with ⟨p, hp, rfl⟩
  simp only [labelRowAt_rolled_mean, labelRowAt_delta_mean] at hr hd
  simp only [labelRowAt_harvest_period, hr, hd, harvestLabel]
  by_cases hc : r < thr ∧ |d| ≤ dthr ∧ d < 0
  · rw [if_pos hc]
    simp [hc]
  · rw [if_neg hc]
    simp [hc]

/-- Witness for C1: the worked example row at index 6, where the smoothed
value 0.13 and the delta -2/75 are both defined and the harvest condition
holds, receives the harvest label. -/
theorem harvest_label_iff_witness :
    (⟨6, 0.12, some (13/100), some (-(2/75)), some (15/100), none⟩ :
      LabeledRow).harvest_period.isSome :=
  (harvest_label_iff 3 ndvi_threshold delta_threshold exampleRows _
    (by with_unfolding_all decide) (13/100) (-(2/75)) rfl rfl).mpr
    (by refine ⟨?_, ?_, ?_⟩ <;> with_unfolding_all decide)

/-- C2: at every position where both the smoothed value and the delta are
defined, the germination label is assigned if and only if the smoothed
value is strictly below the index threshold, the delta magnitude is
strictly below the delta threshold, and the delta is strictly positive;
when the delta magnitude equals the delta threshold exactly, germination
is never assigned, while a falling delta below the index threshold still
receives harvest. -/
theorem germination_label_iff (w : ℕ) (thr dthr : ℚ) (rows : List Row) (lr : LabeledRow)
    (hmem : lr ∈ detectRows w thr dthr rows) (r d : ℚ)
    (hr : lr.rolled_mean = some r) (hd : lr.delta_mean = some d) :
    (lr.germination_period.isSome ↔ (r < thr ∧ |d| < dthr ∧ 0 < d)) ∧
    (|d| = dthr → lr.germination_period = none) ∧
    (|d| = dthr → d < 0 → r < thr → lr.harvest_period.isSome) := by
  rcases List.mem_map.1 hmem with ⟨p, hp, rfl⟩
  simp only [labelRowAt_rolled_mean, labelRowAt_delta_mean] at hr hd
  simp only [labelRowAt_harvest_period, labelRowAt_germination_period, hr, hd,
    harvestLabel, germinationLabel]
  refine ⟨?_, ?_, ?_⟩
  · by_cases hc : r < thr ∧ |d| < dthr ∧ 0 < d
    · rw [if_pos hc]
      simp [hc]
    · rw [if_neg hc]
      simp [hc]
  · intro he
    have hnot : ¬(r < thr ∧ |d| < dthr ∧ 0 < d) := by
      rintro ⟨-, h2, -⟩
      rw [he] at h2
      exact lt_irrefl _ h2
    rw [if_neg hnot]
  · intro he hdneg hrlt
    rw [if_pos ⟨hrlt, le_of_eq he, hdneg⟩]
    rfl

/-- Witness for C2: with window 1 on the two-point series whose delta is
exactly minus the delta threshold, the asymmetry conjunct applies and
yields the harvest label at index 1. -/
theorem germination_label_iff_witness :
    (⟨1, 1/10, some (1/10), some (-(1/10)), some (15/100), none⟩ :
      LabeledRow).harvest_period.isSome :=
  (germination_label_iff 1 ndvi_threshold delta_threshold exactDeltaRows _
    (by with_unfolding_all decide) (1/10) (-(1/10)) rfl rfl).2.2
    (by with_unfolding_all decide) (by with_unfolding_all decide)
    (by with_unfolding_all decide)

/-- C3 evaluated on the code: the parameter cell sets rolling_window = 14,
but the smoothing cell passes the literal window=3 and never reads the
parameter.  On the 9-point example the pipeline defines a smoothed value
already at index 2 and emits a harvest label at index 6, whereas a rolling
mean over rolling_window observations would leave every entry undefined. -/
theorem rolling_window_unused :
    rolling_window = 14 ∧
    (∀ v ∈ rollingMean rolling_window (exampleRows.map Row.mean), v = none) ∧
    ((notebookDetect exampleRows).map LabeledRow.rolled_mean).getD 2 none = some (2/5) ∧
    ((notebookDetect exampleRows).map LabeledRow.harvest_period).getD 6 none =
      some ndvi_threshold := by
  refine ⟨rfl, ?_, ?_, ?_⟩ <;> with_unfolding_all decide

/-- C4 counterexample: on a series with a non-monotonic date column the
specified contract rejects the input with InvalidInputError, but the
pipeline as coded performs no validation at all: it runs to completion on
badRows, emitting one output row per input row and a harvest label. -/
theorem no_validation_counterexample :
    specDetect 3 ndvi_threshold delta_threshold badRows =
      Except.error DetectError.invalidInput ∧
    (detectRows 3 ndvi_threshold delta_threshold badRows).length = 5 ∧
    ((detectRows 3 ndvi_threshold delta_threshold badRows).map
      LabeledRow.harvest_period).getD 3 none = some ndvi_threshold := by
  refine ⟨by with_unfolding_all rfl, ?_, ?_⟩ <;> with_unfolding_all decide

/-- C4 amended: the pipeline performs no input validation and never
raises: on every series, empty or unordered included, it is a total
computation producing exactly one labeled row per input row. -/
theorem no_validation_total (w : ℕ) (thr dthr : ℚ) (rows : List Row) :
    (detectRows w thr dthr rows).length = rows.length := by
  simp [detectRows]

/-- C5: the smoothed and delta columns are exactly as long as the input;
the smoothed entry at i is defined exactly when i is at least window-1 and
the delta entry exactly when i is at least window; every defined delta is
the difference of the smoothed value and its immediate predecessor; and a
label is only ever assigned where both are defined. -/
theorem series_alignment (w : ℕ) (thr dthr : ℚ) (rows : List Row) (h1 : 1 ≤ w) :
    (rollingMean w (rows.map Row.mean)).length = rows.length ∧
    (diffSeries (rollingMean w (rows.map Row.mean))).length = rows.length ∧
    (∀ i, i < rows.length →
      (((rollingMean w (rows.map Row.mean)).getD i none).isSome ↔ w - 1 ≤ i)) ∧
    (∀ i, i < rows.length →
      (((diffSeries (rollingMean w (rows.map Row.mean))).getD i none).isSome ↔ w ≤ i)) ∧
    (∀ i v, (diffSeries (rollingMean w (rows.map Row.mean))).getD i none = some v →
      ∃ a b, (rollingMean w (rows.map Row.mean)).getD i none = some a ∧
        (rollingMean w (rows.map Row.mean)).getD (i - 1) none = some b ∧ v = a - b) ∧
    (∀ lr ∈ detectRows w thr dthr rows,
      lr.harvest_period.isSome ∨ lr.germination_period.isSome →
        lr.rolled_mean.isSome ∧ lr.delta_mean.isSome) := by
  have hml : (rows.map Row.mean).length = rows.length := by simp
  refine ⟨?_, ?_, ?_, ?_, ?_, ?_⟩
  · rw [rollingMean_length, hml]
  · rw [diffSeries_length, rollingMean_length, hml]
  · intro i hi
    exact rollingMean_isSome w (rows.map Row.mean) (by rw [hml]; exact hi)
  · intro i hi
    exact diffSeries_rollingMean_isSome w (rows.map Row.mean) h1 (by rw [hml]; exact hi)
  · intro i v hv
    exact diffSeries_getD_eq_sub _ hv
  · intro lr hmem hlab
    rcases List.mem_map.1 hmem with ⟨p, hp, rfl⟩
    simp only [labelRowAt_harvest_period, labelRowAt_germination_period,
      labelRowAt_rolled_mean, labelRowAt_delta_mean] at hlab ⊢
    rcases hlab with hh | hg
    · exact harvestLabel_isSome hh
    · exact germinationLabel_isSome hg

/-- Witness for C5: the alignment theorem applied to the worked example
with the notebook window 3. -/
theorem series_alignment_witness :
    (rollingMean 3 (exampleRows.map Row.mean)).length = exampleRows.length :=
  (series_alignment 3 ndvi_threshold delta_threshold exampleRows (by norm_num)).1

/-- C6: on the example series with window 3, threshold 0.15 and delta
threshold 0.1, exactly one harvest label appears, at index 6 with smoothed
value 13/100 and delta -2/75, and exactly one germination label, at index
8 with smoothed value 7/50 and delta 1/100; index 7 has delta exactly zero
and no label. -/
theorem example_series_labels :
    (notebookDetect exampleRows).map LabeledRow.harvest_period =
      [none, none, none, none, none, none, some ndvi_threshold, none, none] ∧
    (notebookDetect exampleRows).map LabeledRow.germination_period =
      [none, none, none, none, none, none, none, none, some ndvi_threshold] ∧
    (notebookDetect exampleRows).map LabeledRow.rolled_mean =
      [none, none, some (2/5), some (3/10), some (16/75), some (47/300),
       some (13/100), some (13/100), some (7/50)] ∧
    (notebookDetect exampleRows).map LabeledRow.delta_mean =
      [none, none, none, some (-(1/10)), some (-(13/150)), some (-(17/300)),
       some (-(2/75)), some 0, some (1/100)] := by
  refine ⟨?_, ?_, ?_, ?_⟩ <;> with_unfolding_all decide

/-- C7: a series shorter than the rolling window receives no harvest and
no germination label at any position. -/
theorem short_series_no_labels (w : ℕ) (thr dthr : ℚ) (rows : List Row)
    (h : rows.length < w) :
    ∀ lr ∈ detectRows w thr dthr rows,
      lr.harvest_period = none ∧ lr.germination_period = none := by
  intro lr hmem
  rcases mem_detectRows hmem with ⟨i, hi, rfl⟩
  have hr : (rollingMean w (rows.map Row.mean)).getD i none = none := by
    rw [rollingMean_getD w _ (by simpa using hi), if_neg (by omega)]
  refine ⟨?_, ?_⟩
  · rw [labelRowAt_harvest_period, hr, harvestLabel_none_left]
  · rw [labelRowAt_germination_period, hr, germinationLabel_none_left]

/-- Witness for C7: the first output row of the two-point series under
window 3 carries no label. -/
theorem short_series_no_labels_witness :
    (⟨0, 1/2, none, none, none, none⟩ : LabeledRow).harvest_period = none ∧
    (⟨0, 1/2, none, none, none, none⟩ : LabeledRow).germination_period = none :=
  short_series_no_labels 3 ndvi_threshold delta_threshold shortRows
    (by with_unfolding_all decide) _ (by with_unfolding_all decide)

/-- C8: on a constant series every defined delta is zero, so no row ever
receives a harvest or a germination label. -/
theorem constant_series_no_labels (w : ℕ) (thr dthr c : ℚ) (rows : List Row)
    (h1 : 1 ≤ w) (hc : ∀ row ∈ rows, row.mean = c) :
    ∀ lr ∈ detectRows w thr dthr rows,
      (∀ v, lr.delta_mean = some v → v = 0) ∧
      lr.harvest_period = none ∧ lr.germination_period = none := by
  intro lr hmem
  have hxs : ∀ x ∈ rows.map Row.mean, x = c := by
    intro x hx
    rcases List.mem_map.1 hx with ⟨row, hrow, rfl⟩
    exact hc row hrow
  rcases List.mem_map.1 hmem with ⟨p, hp, rfl⟩
  have hdelta := diffSeries_const w (rows.map Row.mean) c h1 hxs p.1
  refine ⟨?_, ?_, ?_⟩
  · intro v hv
    rw [labelRowAt_delta_mean] at hv
    rcases hdelta with e | e <;> rw [e] at hv
    · exact Option.noConfusion hv
    · exact (Option.some.inj hv).symm
  · rw [labelRowAt_harvest_period]
    exact harvestLabel_none_of_delta hdelta
  · rw [labelRowAt_germination_period]
    exact germinationLabel_none_of_delta hdelta

/-- Witness for C8: the last output row of the constant series under
window 3 has delta zero and no label. -/
theorem constant_series_no_labels_witness :
    (⟨3, 1/4, some (1/4), some 0, none, none⟩ : LabeledRow).harvest_period = none ∧
    (⟨3, 1/4, some (1/4), some 0, none, none⟩ : LabeledRow).germination_period = none :=
  (constant_series_no_labels 3 ndvi_threshold delta_threshold (1/4) constRows
    (by norm_num) (by with_unfolding_all decide) _ (by with_unfolding_all decide)).2

/-- C9: the pipeline only adds columns: the date and value columns pass
through unchanged, and wherever a label column is defined its value is the
threshold constant, never the observed or smoothed value. -/
theorem output_columns (w : ℕ) (thr dthr : ℚ) (rows : List Row) :
    (detectRows w thr dthr rows).map (fun lr => (lr.date, lr.mean)) =
      rows.map (fun row => (row.date, row.mean)) ∧
    (∀ lr ∈ detectRows w thr dthr rows, ∀ v, lr.harvest_period = some v → v = thr) ∧
    (∀ lr ∈ detectRows w thr dthr rows, ∀ v, lr.germination_period = some v → v = thr) := by
  refine ⟨?_, ?_, ?_⟩
  · rw [detectRows, List.map_map]
    have h1 : ((fun lr : LabeledRow => (lr.date, lr.mean)) ∘
        fun p : ℕ × Row => labelRowAt w thr dthr (rows.map Row.mean) p.1 p.2) =
        ((fun row : Row => (row.date, row.mean)) ∘ Prod.snd) := rfl
    rw [h1, ← List.map_map, List.enum_map_snd]
  · intro lr hmem v hv
    rcases List.mem_map.1 hmem with ⟨p, hp, rfl⟩
    rw [labelRowAt_harvest_period] at hv
    exact harvestLabel_eq_some hv
  · intro lr hmem v hv
    rcases List.mem_map.1 hmem with ⟨p, hp, rfl⟩
    rw [labelRowAt_germination_period] at hv
    exact germinationLabel_eq_some hv

/-- Witness for C9: the frame condition instantiated on the worked
example. -/
theorem output_columns_witness :
    (detectRows 3 ndvi_threshold delta_threshold exampleRows).map
        (fun lr => (lr.date, lr.mean)) =
      exampleRows.map (fun row => (row.date, row.mean)) :=
  (output_columns 3 ndvi_threshold delta_threshold exampleRows).1

/-- C10: the computation reads only the value column: two series with the
same values and arbitrarily different date columns produce identical
smoothed, delta and label columns. -/
theorem timestamps_ignored (w : ℕ) (thr dthr : ℚ) (rows1 rows2 : List Row)
    (h : rows1.map Row.mean = rows2.map Row.mean) :
    (detectRows w thr dthr rows1).map
        (fun lr => (lr.rolled_mean, lr.delta_mean, lr.harvest_period, lr.germination_period)) =
      (detectRows w thr dthr rows2).map
        (fun lr => (lr.rolled_mean, lr.delta_mean, lr.harvest_period,
          lr.germination_period)) := by
  have hlen : rows1.length = rows2.length := by
    have h2 := congrArg List.length h
    simpa using h2
  apply List.ext_getElem
  · simp [detectRows, hlen]
  · intro i h1 h2
    simp only [detectRows, List.getElem_map, List.getElem_enum,
      labelRowAt_rolled_mean, labelRowAt_delta_mean, labelRowAt_harvest_period,
      labelRowAt_germination_period]
    rw [h]

/-- Witness for C10: the unordered-date series and the ordered-date series
with the same values produce the same derived columns. -/
theorem timestamps_ignored_witness :
    (detectRows 3 ndvi_threshold delta_threshold badRows).map
        (fun lr => (lr.rolled_mean, lr.delta_mean, lr.harvest_period, lr.germination_period)) =
      (detectRows 3 ndvi_threshold delta_threshold goodDateRows).map
        (fun lr => (lr.rolled_mean, lr.delta_mean, lr.harvest_period,
          lr.germination_period)) :=
  timestamps_ignored 3 ndvi_threshold delta_threshold badRows goodDateRows
    (by with_unfolding_all decide)

end Claims

end FarmVibes
